import Mathlib

/-!
Shallow embedding of `src/arm_teleop.py` (the `ArmTeleop` node): selection
state, debounced press integration, goal construction, the control loop and
the goal-response callback. Key codes are ASCII naturals as in the Python
source (`ord('a')` etc.); positions are rationals; clock values are integer
nanoseconds as in `rclpy.time.Time`/`rclpy.duration.Duration`; the
`_last_pressed` dict is an insertion-ordered association list, matching
Python dict semantics.
-/

namespace ArmTeleop

/-- The value stored in `_selected_joint` when it is not `None`: the Python
code stores either an `int` arm index or the string `'torso'`/`'gripper'`. -/
inductive Joint where
  | arm (i : Nat)
  | torso
  | gripper
deriving DecidableEq, Repr

/-- `movement_bindings` (source lines 71-78): adjustment key code to signed
delta. `none` for keys not in the dict. -/
def movement_bindings (k : Nat) : Option ℚ :=
  if k = 97 then some (-1/100)        -- 'a'
  else if k = 100 then some (1/100)   -- 'd'
  else if k = 119 then some (1/1000)  -- 'w'
  else if k = 115 then some (-1/1000) -- 's'
  else if k = 111 then some (-157/100) -- 'o'
  else if k = 112 then some (157/100)  -- 'p'
  else none

/-- `joint_bindings` (source lines 80-90): digit key code to joint group. -/
def joint_bindings (k : Nat) : Option Joint :=
  if k = 49 then some (.arm 0)
  else if k = 50 then some (.arm 1)
  else if k = 51 then some (.arm 2)
  else if k = 52 then some (.arm 3)
  else if k = 53 then some (.arm 4)
  else if k = 54 then some (.arm 5)
  else if k = 55 then some (.arm 6)
  else if k = 56 then some .torso
  else if k = 57 then some .gripper
  else none

/-- The mutable state of the `ArmTeleop` node (fields set in `__init__`,
source lines 61-69). `last_pressed` maps a key code to the timestamp it was
last pressed, in dict insertion order. -/
structure TeleopState where
  joint_positions_arm : List ℚ
  joint_position_torso : ℚ
  joint_position_gripper : ℚ
  selected_joint : Option Joint
  running : Bool
  goal_sent : Bool
  last_pressed : List (Nat × ℤ)
deriving DecidableEq, Repr

/-- Initial state from `__init__` (source lines 62-68). -/
def initState : TeleopState where
  joint_positions_arm := [2/10, -134/100, -2/10, 194/100, -157/100, 137/100, 0]
  joint_position_torso := 15/100
  joint_position_gripper := 0
  selected_joint := none
  running := true
  goal_sent := false
  last_pressed := []

/-- `self._pressed_duration = 0.4` (source line 69), as the nanosecond
count `rclpyDuration(seconds=0.4)` carries on line 129 of the source. -/
def pressed_duration : ℤ := 400000000

/-- Python `d[k] = v` on an insertion-ordered dict: overwrite in place if
the key is present, else append at the end. -/
def dictSet (m : List (Nat × ℤ)) (k : Nat) (v : ℤ) : List (Nat × ℤ) :=
  match m with
  | [] => [(k, v)]
  | (k', v') :: rest =>
    if k' = k then (k, v) :: rest else (k', v') :: dictSet rest k v

/-- `_key_pressed` (source lines 103-123). `now` is the clock value used
when a press timestamp is recorded. The `q` branch also sends SIGINT to the
process; that interrupt is modelled at the loop level (`runLoop`), here only
`running` is cleared. -/
def key_pressed (s : TeleopState) (keycode : Nat) (now : ℤ) : TeleopState :=
  if keycode = 113 then
    { s with running := false }
  else if (joint_bindings keycode).isSome then
    { s with selected_joint := joint_bindings keycode }
  else if (movement_bindings keycode).isSome && s.selected_joint.isSome then
    { s with last_pressed := dictSet s.last_pressed keycode now }
  else if keycode = 114 then
    { s with selected_joint := none }
  else s

/-- One iteration of the `for k in keys` loop body in `_set_velocity`
(source lines 132-139): add the key's delta to the selected group's
position and set `_goal_sent = True`. When no group is selected none of the
three branches fire, but the flag is still set. -/
def applyKey (st : TeleopState) (k : Nat) : TeleopState :=
  let st1 :=
    match st.selected_joint with
    | some (.arm i) =>
      { st with joint_positions_arm :=
          st.joint_positions_arm.set i (st.joint_positions_arm.getD i 0 + (movement_bindings k).getD 0) }
    | some .torso =>
      { st with joint_position_torso :=
          st.joint_position_torso + (movement_bindings k).getD 0 }
    | some .gripper =>
      { st with joint_position_gripper :=
          st.joint_position_gripper + (movement_bindings k).getD 0 }
    | none => st
  { st1 with goal_sent := true }

/-- The `keys` list built in `_set_velocity` (source lines 127-130): key
codes whose press time is strictly inside the debounce window. -/
def dueKeys (s : TeleopState) (now : ℤ) : List Nat :=
  (s.last_pressed.filter (fun kt => now - kt.2 < pressed_duration)).map (·.1)

/-- `_set_velocity` (source lines 125-140): apply each due key's delta to
the selected group, then clear `_last_pressed` — but only when at least one
key is due (`if keys:`). -/
def set_velocity (s : TeleopState) (now : ℤ) : TeleopState :=
  let keys := dueKeys s now
  if keys.isEmpty then s
  else { keys.foldl applyKey s with last_pressed := [] }

/-- A `JointTrajectoryPoint` with its `time_from_start` `Duration`
(`sec`, `nanosec`). -/
structure TrajPoint where
  positions : List ℚ
  time_sec : Nat
  time_nanosec : Nat
deriving DecidableEq, Repr

/-- A `FollowJointTrajectory.Goal` as the three `_send_goal_*` functions
build it: joint names plus the trajectory points. -/
structure Goal where
  joint_names : List String
  points : List TrajPoint
deriving DecidableEq, Repr

/-- `_send_goal_arm` (source lines 154-169), goal construction part. -/
def send_goal_arm (s : TeleopState) : Goal where
  joint_names := ["arm_1_joint", "arm_2_joint", "arm_3_joint",
    "arm_4_joint", "arm_5_joint", "arm_6_joint", "arm_7_joint"]
  points := [⟨s.joint_positions_arm, 1, 0⟩]

/-- `_send_goal_torso` (source lines 171-183), goal construction part. -/
def send_goal_torso (s : TeleopState) : Goal where
  joint_names := ["torso_lift_joint"]
  points := [⟨[s.joint_position_torso], 1, 0⟩]

/-- `_send_goal_gripper` (source lines 185-197), goal construction part:
both finger joints receive the same scalar. -/
def send_goal_gripper (s : TeleopState) : Goal where
  joint_names := ["gripper_right_finger_joint", "gripper_left_finger_joint"]
  points := [⟨[s.joint_position_gripper, s.joint_position_gripper], 1, 0⟩]

/-- `_publish` (source lines 142-152): the goal submitted to a transport,
if any. When `_selected_joint` is `None`, `_publish` only redraws the
instruction line and submits nothing. -/
def publish (s : TeleopState) : Option Goal :=
  match s.selected_joint with
  | some (.arm _) => some (send_goal_arm s)
  | some .torso => some (send_goal_torso s)
  | some .gripper => some (send_goal_gripper s)
  | none => none

/-- The body of the `while self._running` loop in `run` (source lines
93-101) after the key has been handled: `_set_velocity`, then publish and
reset the dirty flag if `_goal_sent`. Returns the next state and the goal
submitted this tick, if any. -/
def finishTick (s : TeleopState) (now : ℤ) : TeleopState × Option Goal :=
  let s2 := set_velocity s now
  if s2.goal_sent then ({ s2 with goal_sent := false }, publish s2)
  else (s2, none)

/-- One full iteration of `run` given the polled key. Pressing `q` makes
`_key_pressed` send SIGINT to the process (source line 106); CPython's
default handler raises KeyboardInterrupt at the next interpreter
checkpoint, which aborts the iteration before `_set_velocity` and
propagates out of `run` (caught in `main`). That interrupt is modelled as
the `none` outcome: the iteration produces no further state and no goal. -/
def iter (s : TeleopState) (key : Option Nat) (now : ℤ) :
    Option (TeleopState × Option Goal) :=
  match key with
  | some k =>
    if k = 113 then none
    else some (finishTick (key_pressed s k now) now)
  | none => some (finishTick s now)

/-- The `run` loop (source lines 92-101) over a finite input trace of
(polled key, clock value) pairs, collecting every goal submitted to a
transport. The loop stops when `_running` is false or on the
KeyboardInterrupt raised by the quit key. -/
def runLoop : TeleopState → List (Option Nat × ℤ) → List Goal
  | _, [] => []
  | s, (key, now) :: rest =>
    if s.running then
      match iter s key now with
      | none => []
      | some (s', g) => g.toList ++ runLoop s' rest
    else []

/-- Everything `goal_response_callback` (source lines 199-207) does, as
data: the control state it leaves behind, the lines it logs, whether it
requested the final result (`get_result_async`), and the goals it
submitted (it never submits any — there is no retry path in the source). -/
structure CallbackEffect where
  state : TeleopState
  logs : List String
  requested_result : Bool
  submitted : List Goal
deriving DecidableEq, Repr

/-- `goal_response_callback` (source lines 199-207): on rejection it logs
and returns; on acceptance it logs and requests the final result. In
neither branch does it touch `s` or submit a goal. -/
def goal_response_callback (s : TeleopState) (accepted : Bool) :
    CallbackEffect :=
  if !accepted then ⟨s, ["Goal rejected"], false, []⟩
  else ⟨s, ["Goal accepted"], true, []⟩

/-- States reachable from `initState` by any interleaving of key handling
and integrator ticks, at arbitrary clock values. -/
inductive Reachable : TeleopState → Prop where
  | init : Reachable initState
  | key (s : TeleopState) (k : Nat) (now : ℤ) :
      Reachable s → Reachable (key_pressed s k now)
  | tick (s : TeleopState) (now : ℤ) :
      Reachable s → Reachable (set_velocity s now)
  | dispatched (s : TeleopState) :
      Reachable s → Reachable { s with goal_sent := false }

/-- The position the selected joint group exposes: the indexed arm element
(as the Python indexing `_joint_positions_arm[i]` reads it), the torso
scalar or the gripper scalar. -/
def posOf (s : TeleopState) : Joint → ℚ
  | .arm i => s.joint_positions_arm.getD i 0
  | .torso => s.joint_position_torso
  | .gripper => s.joint_position_gripper

/-- Feed a sequence of (key code, clock value) pairs through
`_key_pressed`, in order. -/
def processKeys (s : TeleopState) (l : List (Nat × ℤ)) : TeleopState :=
  l.foldl (fun st p => key_pressed st p.1 p.2) s

/-- Concrete run: key `1` pressed at the start selects arm joint index 0. -/
def sArm0 : TeleopState := key_pressed initState 49 0

/-- Concrete run: after selecting arm joint 0, key `a` is pressed at
clock 0 and its timestamp is recorded. -/
def sPressA : TeleopState := key_pressed sArm0 97 0

/-- Concrete run: after the recorded `a` press, key `r` clears the
selection while the press is still pending. -/
def sDeselect : TeleopState := key_pressed sPressA 114 0

/-- Concrete run: key `8` pressed at the start selects the torso. -/
def sTorsoSel : TeleopState := key_pressed initState 56 0

/-- Concrete run: after selecting the torso, key `o` is pressed at
clock 0 and its timestamp is recorded. -/
def sTorsoPress : TeleopState := key_pressed sTorsoSel 111 0

/-! ### Supporting lemmas -/

theorem getD_set_self (l : List ℚ) (i : Nat) (v : ℚ) (h : i < l.length) :
    (l.set i v).getD i 0 = v := by
  rw [List.getD_eq_getElem?_getD, List.getElem?_set_self' ]
  simp [List.getElem?_eq_getElem h]

theorem getD_set_ne (l : List ℚ) (i j : Nat) (v : ℚ) (h : i ≠ j) :
    (l.set i v).getD j 0 = l.getD j 0 := by
  rw [List.getD_eq_getElem?_getD, List.getElem?_set_ne h, ← List.getD_eq_getElem?_getD]

theorem movement_key_cases (k : Nat) (h : (movement_bindings k).isSome = true) :
    k = 97 ∨ k = 100 ∨ k = 119 ∨ k = 115 ∨ k = 111 ∨ k = 112 := by
  unfold movement_bindings at h
  split_ifs at h <;> simp_all

theorem joint_bindings_arm_lt (k i : Nat) (h : joint_bindings k = some (.arm i)) :
    i < 7 := by
  unfold joint_bindings at h
  split_ifs at h <;> simp_all <;> omega

theorem key_pressed_digit (s : TeleopState) (k : Nat) (now : ℤ)
    (h1 : 49 ≤ k) (h2 : k ≤ 57) :
    key_pressed s k now = { s with selected_joint := joint_bindings k } := by
  interval_cases k <;> simp [key_pressed, joint_bindings]

theorem applyKey_none (st : TeleopState) (k : Nat) (h : st.selected_joint = none) :
    applyKey st k = { st with goal_sent := true } := by
  simp [applyKey, h]

theorem applyKey_arm (st : TeleopState) (k i : Nat)
    (h : st.selected_joint = some (.arm i)) :
    applyKey st k = { st with
      joint_positions_arm :=
        st.joint_positions_arm.set i (st.joint_positions_arm.getD i 0 + (movement_bindings k).getD 0),
      goal_sent := true } := by
  simp [applyKey, h]

theorem applyKey_torso (st : TeleopState) (k : Nat)
    (h : st.selected_joint = some .torso) :
    applyKey st k = { st with
      joint_position_torso := st.joint_position_torso + (movement_bindings k).getD 0,
      goal_sent := true } := by
  simp [applyKey, h]

theorem applyKey_gripper (st : TeleopState) (k : Nat)
    (h : st.selected_joint = some .gripper) :
    applyKey st k = { st with
      joint_position_gripper := st.joint_position_gripper + (movement_bindings k).getD 0,
      goal_sent := true } := by
  simp [applyKey, h]

theorem applyKey_selected (st : TeleopState) (k : Nat) :
    (applyKey st k).selected_joint = st.selected_joint := by
  rcases h : st.selected_joint with _ | j
  · rw [applyKey_none st k h]; exact h
  · cases j
    · rw [applyKey_arm st k _ h]; exact h
    · rw [applyKey_torso st k h]; exact h
    · rw [applyKey_gripper st k h]; exact h

theorem applyKey_arm_length (st : TeleopState) (k : Nat) :
    (applyKey st k).joint_positions_arm.length = st.joint_positions_arm.length := by
  rcases h : st.selected_joint with _ | j
  · rw [applyKey_none st k h]
  · cases j
    · rw [applyKey_arm st k _ h]; simp
    · rw [applyKey_torso st k h]
    · rw [applyKey_gripper st k h]

theorem applyKey_goal_sent (st : TeleopState) (k : Nat) :
    (applyKey st k).goal_sent = true := by
  rcases h : st.selected_joint with _ | j
  · rw [applyKey_none st k h]
  · cases j
    · rw [applyKey_arm st k _ h]
    · rw [applyKey_torso st k h]
    · rw [applyKey_gripper st k h]

theorem foldl_selected (keys : List Nat) (s : TeleopState) :
    (keys.foldl applyKey s).selected_joint = s.selected_joint := by
  induction keys generalizing s with
  | nil => rfl
  | cons k rest ih => rw [List.foldl_cons, ih, applyKey_selected]

theorem foldl_arm_length (keys : List Nat) (s : TeleopState) :
    (keys.foldl applyKey s).joint_positions_arm.length = s.joint_positions_arm.length := by
  induction keys generalizing s with
  | nil => rfl
  | cons k rest ih => rw [List.foldl_cons, ih, applyKey_arm_length]

theorem foldl_goal_sent (keys : List Nat) (s : TeleopState) (h : keys ≠ []) :
    (keys.foldl applyKey s).goal_sent = true := by
  induction keys generalizing s with
  | nil => exact absurd rfl h
  | cons k rest ih =>
    rw [List.foldl_cons]
    rcases rest with _ | ⟨k2, rest2⟩
    · exact applyKey_goal_sent s k
    · exact ih (applyKey s k) (by simp)

theorem foldl_none_frame (keys : List Nat) (s : TeleopState)
    (h : s.selected_joint = none) :
    (keys.foldl applyKey s).joint_positions_arm = s.joint_positions_arm ∧
    (keys.foldl applyKey s).joint_position_torso = s.joint_position_torso ∧
    (keys.foldl applyKey s).joint_position_gripper = s.joint_position_gripper := by
  induction keys generalizing s with
  | nil => exact ⟨rfl, rfl, rfl⟩
  | cons k rest ih =>
    rw [List.foldl_cons, applyKey_none s k h]
    exact ih _ h

theorem foldl_arm_frame (keys : List Nat) (s : TeleopState) (i : Nat)
    (h : s.selected_joint = some (.arm i)) :
    (keys.foldl applyKey s).joint_position_torso = s.joint_position_torso ∧
    (keys.foldl applyKey s).joint_position_gripper = s.joint_position_gripper ∧
    ∀ j, j ≠ i → (keys.foldl applyKey s).joint_positions_arm.getD j 0 =
      s.joint_positions_arm.getD j 0 := by
  induction keys generalizing s with
  | nil => exact ⟨rfl, rfl, fun _ _ => rfl⟩
  | cons k rest ih =>
    rw [List.foldl_cons, applyKey_arm s k i h]
    obtain ⟨h1, h2, h3⟩ := ih { s with
      joint_positions_arm :=
        s.joint_positions_arm.set i (s.joint_positions_arm.getD i 0 + (movement_bindings k).getD 0),
      goal_sent := true } h
    refine ⟨h1, h2, fun j hj => ?_⟩
    rw [h3 j hj]
    exact getD_set_ne _ i j _ (fun hij => hj hij.symm)

theorem foldl_torso_frame (keys : List Nat) (s : TeleopState)
    (h : s.selected_joint = some .torso) :
    (keys.foldl applyKey s).joint_positions_arm = s.joint_positions_arm ∧
    (keys.foldl applyKey s).joint_position_gripper = s.joint_position_gripper := by
  induction keys generalizing s with
  | nil => exact ⟨rfl, rfl⟩
  | cons k rest ih =>
    rw [List.foldl_cons, applyKey_torso s k h]
    exact ih _ h

theorem foldl_gripper_frame (keys : List Nat) (s : TeleopState)
    (h : s.selected_joint = some .gripper) :
    (keys.foldl applyKey s).joint_positions_arm = s.joint_positions_arm ∧
    (keys.foldl applyKey s).joint_position_torso = s.joint_position_torso := by
  induction keys generalizing s with
  | nil => exact ⟨rfl, rfl⟩
  | cons k rest ih =>
    rw [List.foldl_cons, applyKey_gripper s k h]
    exact ih _ h

theorem set_velocity_selected (s : TeleopState) (now : ℤ) :
    (set_velocity s now).selected_joint = s.selected_joint := by
  unfold set_velocity
  by_cases h : (dueKeys s now).isEmpty <;> simp [h, foldl_selected]

theorem set_velocity_arm_length (s : TeleopState) (now : ℤ) :
    (set_velocity s now).joint_positions_arm.length = s.joint_positions_arm.length := by
  unfold set_velocity
  by_cases h : (dueKeys s now).isEmpty <;> simp [h, foldl_arm_length]

theorem set_velocity_goal_sent (s : TeleopState) (now : ℤ) :
    (set_velocity s now).goal_sent = (s.goal_sent || !(dueKeys s now).isEmpty) := by
  unfold set_velocity
  by_cases h : (dueKeys s now).isEmpty
  · simp [h]
  · simp [h, foldl_goal_sent (dueKeys s now) s (by simpa using h)]

theorem publish_of_none (t : TeleopState) (h : t.selected_joint = none) :
    publish t = none := by
  simp [publish, h]

/-! ### Claims -/

/-- C1, counterexample: with no group selected, pressing the adjustment key
`a` (code 97) records nothing — `_last_pressed` stays empty and the whole
state is unchanged — contradicting the claim that the press's timestamp is
still stored in PendingPress. -/
theorem c1_counterexample :
    initState.selected_joint = none ∧
    (movement_bindings 97).isSome = true ∧
    (key_pressed initState 97 5).last_pressed = [] ∧
    key_pressed initState 97 5 = initState :=
  ⟨rfl, rfl, rfl, rfl⟩

/-- C1 (amended): an adjustment key pressed while no joint group is
selected is ignored entirely by `_key_pressed` — it is not recorded in
PendingPress and the state is unchanged, so it can never mutate a position
on a later tick and there is nothing to clear. -/
theorem c1_no_selection_press_ignored (s : TeleopState) (k : Nat) (now : ℤ)
    (hsel : s.selected_joint = none) (hmov : (movement_bindings k).isSome = true) :
    key_pressed s k now = s := by
  rcases movement_key_cases k hmov with h | h | h | h | h | h <;>
    subst h <;> simp [key_pressed, joint_bindings, hsel]

/-- C1 witness: the amended statement at the concrete input `a` pressed at
clock 5 in the initial (no selection) state. -/
theorem c1_witness :
    initState.selected_joint = none ∧
    (movement_bindings 97).isSome = true ∧
    key_pressed initState 97 5 = initState :=
  ⟨rfl, rfl, c1_no_selection_press_ignored initState 97 5 rfl rfl⟩

/-- C2, counterexample: a press of `a` recorded at clock 0 with arm joint 0
selected is still in `_last_pressed` after a tick at clock 1 s (the press is
expired, so `keys` is empty and `_set_velocity` skips the clear),
contradicting the claim that PendingPress is empty after every tick. -/
theorem c2_counterexample :
    sPressA.last_pressed = [(97, 0)] ∧
    (set_velocity sPressA 1000000000).last_pressed = [(97, 0)] :=
  ⟨rfl, rfl⟩

/-- C2 (amended): the batch clear is conditional, not unconditional: on a
tick where at least one recorded press is inside the debounce window,
every recorded press (expired and irrelevant ones included) is removed;
on a tick where no recorded press is inside the window, nothing is removed
and PendingPress is unchanged. -/
theorem c2_clear_iff_some_due (s : TeleopState) (now : ℤ) :
    (dueKeys s now ≠ [] → (set_velocity s now).last_pressed = []) ∧
    (dueKeys s now = [] → (set_velocity s now).last_pressed = s.last_pressed) := by
  refine ⟨fun h => ?_, fun h => ?_⟩
  · unfold set_velocity
    simp [List.isEmpty_iff, h]
  · unfold set_velocity
    simp [h]

/-- C2 witness: the amended statement's clearing branch at a concrete
input — the `a` press recorded at clock 0 is due on a tick at clock 0.1 s,
and PendingPress is empty afterwards. -/
theorem c2_witness : (set_velocity sPressA 100000000).last_pressed = [] :=
  (c2_clear_iff_some_due sPressA 100000000).1 (by decide)

/-- C3, counterexample: select arm joint 0, record `a` at clock 0, press
`r` (selection becomes None), then tick at clock 0.1 s: no position changes
but `_goal_sent` is still set to True (`self._goal_sent = True` sits inside
the per-key loop, not inside the selection branches), contradicting the
claimed "dirty iff some position mutated". -/
theorem c3_counterexample :
    sDeselect.selected_joint = none ∧
    sDeselect.goal_sent = false ∧
    (set_velocity sDeselect 100000000).goal_sent = true ∧
    (set_velocity sDeselect 100000000).joint_positions_arm = sDeselect.joint_positions_arm ∧
    (set_velocity sDeselect 100000000).joint_position_torso = sDeselect.joint_position_torso ∧
    (set_velocity sDeselect 100000000).joint_position_gripper = sDeselect.joint_position_gripper :=
  ⟨rfl, rfl, rfl, rfl, rfl, rfl⟩

/-- C3 (amended): after a tick the dirty flag equals (previous flag OR at
least one recorded press lies inside the debounce window) — it can be set
with nothing mutated; when the selection is None a tick mutates no
position, and even when the flag is set `_publish` submits no goal to any
transport. -/
theorem c3_dirty_iff_due_press (s : TeleopState) (now : ℤ) :
    (set_velocity s now).goal_sent = (s.goal_sent || !(dueKeys s now).isEmpty) ∧
    (s.selected_joint = none →
      (set_velocity s now).joint_positions_arm = s.joint_positions_arm ∧
      (set_velocity s now).joint_position_torso = s.joint_position_torso ∧
      (set_velocity s now).joint_position_gripper = s.joint_position_gripper ∧
      publish (set_velocity s now) = none) := by
  refine ⟨set_velocity_goal_sent s now, fun h => ?_⟩
  have h2 : (set_velocity s now).selected_joint = none := by
    rw [set_velocity_selected s now, h]
  by_cases hk : (dueKeys s now).isEmpty
  · have hsv : set_velocity s now = s := by unfold set_velocity; simp [hk]
    rw [hsv]
    exact ⟨rfl, rfl, rfl, publish_of_none s h⟩
  · have hsv : set_velocity s now =
        { (dueKeys s now).foldl applyKey s with last_pressed := [] } := by
      unfold set_velocity; simp [hk]
    obtain ⟨h1, h3, h4⟩ := foldl_none_frame (dueKeys s now) s h
    rw [hsv]
    exact ⟨h1, h3, h4, publish_of_none _ (by rw [← hsv]; exact h2)⟩

/-- C3 witness: the amended statement at the deselect-then-tick run: the
dirty flag equation holds and no goal is submitted. -/
theorem c3_witness :
    (set_velocity sDeselect 100000000).goal_sent =
      (sDeselect.goal_sent || !(dueKeys sDeselect 100000000).isEmpty) ∧
    publish (set_velocity sDeselect 100000000) = none := by
  have h := c3_dirty_iff_due_press sDeselect 100000000
  exact ⟨h.1, (h.2 (by decide)).2.2.2⟩

/-- C4: a press of key `k` recorded at time `T` while a joint group is
selected (and still selected at tick time) is applied by a tick at `T + Δ`
exactly when `Δ < 0.4` seconds (strict): the selected group's position
gains the key's signed delta when `Δ` is inside the window, gains nothing
at `Δ ≥ 0.4` s, and in the expired case the tick changes nothing at all. -/
theorem c4_debounce_boundary (s : TeleopState) (g : Joint) (k : Nat)
    (T Δ : ℤ) (δ : ℚ)
    (hsel : s.selected_joint = some g)
    (hlp : s.last_pressed = [(k, T)])
    (hmov : movement_bindings k = some δ)
    (harm : ∀ i, g = Joint.arm i → i < s.joint_positions_arm.length) :
    posOf (set_velocity s (T + Δ)) g =
      posOf s g + (if Δ < pressed_duration then δ else 0) ∧
    (pressed_duration ≤ Δ → set_velocity s (T + Δ) = s) := by
  have hdue : dueKeys s (T + Δ) = if Δ < pressed_duration then [k] else [] := by
    unfold dueKeys
    rw [hlp]
    by_cases hΔ : Δ < pressed_duration <;>
      simp [List.filter, add_sub_cancel_left, hΔ]
  by_cases hΔ : Δ < pressed_duration
  · have hsv : set_velocity s (T + Δ) = { applyKey s k with last_pressed := [] } := by
      unfold set_velocity
      rw [hdue]
      simp [hΔ]
    refine ⟨?_, fun hge => absurd hΔ (not_lt.mpr hge)⟩
    rw [hsv, if_pos hΔ]
    cases g with
    | arm i =>
      have hlen := harm i rfl
      show (applyKey s k).joint_positions_arm.getD i 0 =
        s.joint_positions_arm.getD i 0 + δ
      rw [applyKey_arm s k i hsel]
      show (s.joint_positions_arm.set i
        (s.joint_positions_arm.getD i 0 + (movement_bindings k).getD 0)).getD i 0 =
        s.joint_positions_arm.getD i 0 + δ
      rw [getD_set_self _ i _ hlen, hmov]
      rfl
    | torso =>
      show (applyKey s k).joint_position_torso = s.joint_position_torso + δ
      rw [applyKey_torso s k hsel]
      show s.joint_position_torso + (movement_bindings k).getD 0 =
        s.joint_position_torso + δ
      rw [hmov]
      rfl
    | gripper =>
      show (applyKey s k).joint_position_gripper = s.joint_position_gripper + δ
      rw [applyKey_gripper s k hsel]
      show s.joint_position_gripper + (movement_bindings k).getD 0 =
        s.joint_position_gripper + δ
      rw [hmov]
      rfl
  · have hsv : set_velocity s (T + Δ) = s := by
      unfold set_velocity
      rw [hdue]
      simp [hΔ]
    exact ⟨by rw [hsv, if_neg hΔ, add_zero], fun _ => hsv⟩

/-- C4 witness: the torso `o` press recorded at clock 0, ticked 0.5 s
later — outside the window, so the state is fully unchanged. -/
theorem c4_witness : set_velocity sTorsoPress (0 + 500000000) = sTorsoPress :=
  (c4_debounce_boundary sTorsoPress Joint.torso 111 0 500000000 (-157/100)
    rfl rfl rfl (fun _ h => Joint.noConfusion h)).2 (by decide)

/-- C5: whenever `_publish` submits a goal, that goal is a single-waypoint
trajectory whose sole point has a 1-second (1 s, 0 ns) time-to-reach, and
its joint names and positions are fixed by the selection: an arm selection
names the 7 fixed arm joints in index order with the current arm position
vector; torso names the single torso joint with the torso scalar; gripper
names the two finger joints with the gripper scalar duplicated. -/
theorem c5_goal_shape (s : TeleopState) (goal : Goal)
    (h : publish s = some goal) :
    goal.points.length = 1 ∧
    (∀ p ∈ goal.points, p.time_sec = 1 ∧ p.time_nanosec = 0) ∧
    (∀ i, s.selected_joint = some (Joint.arm i) →
      goal.joint_names = ["arm_1_joint", "arm_2_joint", "arm_3_joint",
        "arm_4_joint", "arm_5_joint", "arm_6_joint", "arm_7_joint"] ∧
      goal.points = [⟨s.joint_positions_arm, 1, 0⟩]) ∧
    (s.selected_joint = some Joint.torso →
      goal.joint_names = ["torso_lift_joint"] ∧
      goal.points = [⟨[s.joint_position_torso], 1, 0⟩]) ∧
    (s.selected_joint = some Joint.gripper →
      goal.joint_names = ["gripper_right_finger_joint", "gripper_left_finger_joint"] ∧
      goal.points = [⟨[s.joint_position_gripper, s.joint_position_gripper], 1, 0⟩]) := by
  rcases hsel : s.selected_joint with _ | j
  · rw [publish_of_none s hsel] at h
    exact absurd h (by simp)
  · cases j with
    | arm i =>
      simp only [publish, hsel] at h
      obtain rfl : send_goal_arm s = goal := Option.some.inj h
      refine ⟨rfl, ?_, fun _ _ => ⟨rfl, rfl⟩, fun hc => ?_, fun hc => ?_⟩
      · intro p hp
        simp [send_goal_arm] at hp
        subst hp
        exact ⟨rfl, rfl⟩
      · exact absurd (Option.some.inj hc) (by simp)
      · exact absurd (Option.some.inj hc) (by simp)
    | torso =>
      simp only [publish, hsel] at h
      obtain rfl : send_goal_torso s = goal := Option.some.inj h
      refine ⟨rfl, ?_, fun i hc => ?_, fun _ => ⟨rfl, rfl⟩, fun hc => ?_⟩
      · intro p hp
        simp [send_goal_torso] at hp
        subst hp
        exact ⟨rfl, rfl⟩
      · exact absurd (Option.some.inj hc) (by simp)
      · exact absurd (Option.some.inj hc) (by simp)
    | gripper =>
      simp only [publish, hsel] at h
      obtain rfl : send_goal_gripper s = goal := Option.some.inj h
      refine ⟨rfl, ?_, fun i hc => ?_, fun hc => ?_, fun _ => ⟨rfl, rfl⟩⟩
      · intro p hp
        simp [send_goal_gripper] at hp
        subst hp
        exact ⟨rfl, rfl⟩
      · exact absurd (Option.some.inj hc) (by simp)
      · exact absurd (Option.some.inj hc) (by simp)

/-- C5 witness: with the torso selected, the goal `_publish` submits has
exactly one trajectory point. -/
theorem c5_witness : (send_goal_torso sTorsoSel).points.length = 1 :=
  (c5_goal_shape sTorsoSel (send_goal_torso sTorsoSel) rfl).1

/-- C6: processing any nonempty sequence of digit keys 1-9 leaves the
selection equal to the group `joint_bindings` maps the last digit to
(1-7 are arm indices 0-6, 8 is torso, 9 is gripper) and leaves the arm
vector, the torso scalar and the gripper scalar unchanged. -/
theorem c6_digit_sequence (s : TeleopState) (l : List (Nat × ℤ))
    (hne : l ≠ []) (hd : ∀ p ∈ l, 49 ≤ p.1 ∧ p.1 ≤ 57) :
    (processKeys s l).selected_joint = joint_bindings (l.getLast hne).1 ∧
    (processKeys s l).joint_positions_arm = s.joint_positions_arm ∧
    (processKeys s l).joint_position_torso = s.joint_position_torso ∧
    (processKeys s l).joint_position_gripper = s.joint_position_gripper := by
  induction l generalizing s with
  | nil => exact absurd rfl hne
  | cons p rest ih =>
    have hp := hd p (List.mem_cons_self p rest)
    have hstep : key_pressed s p.1 p.2 = { s with selected_joint := joint_bindings p.1 } :=
      key_pressed_digit s p.1 p.2 hp.1 hp.2
    rcases rest with _ | ⟨q, rest2⟩
    · have heq : processKeys s [p] = { s with selected_joint := joint_bindings p.1 } := hstep
      rw [heq]
      exact ⟨rfl, rfl, rfl, rfl⟩
    · have hd2 : ∀ r ∈ q :: rest2, 49 ≤ r.1 ∧ r.1 ≤ 57 :=
        fun r hr => hd r (List.mem_cons_of_mem p hr)
      have hne2 : q :: rest2 ≠ ([] : List (Nat × ℤ)) := by simp
      have hpk : processKeys s (p :: q :: rest2) =
          processKeys (key_pressed s p.1 p.2) (q :: rest2) := rfl
      have hlast : (p :: q :: rest2).getLast hne = (q :: rest2).getLast hne2 :=
        List.getLast_cons hne2
      obtain ⟨i1, i2, i3, i4⟩ := ih (key_pressed s p.1 p.2) hne2 hd2
      rw [hpk, hlast, hstep] at *
      exact ⟨i1, i2, i3, i4⟩

/-- C6 witness: pressing `1` then `9` from the initial state selects the
gripper and leaves the arm vector at its initial value. -/
theorem c6_witness :
    (processKeys initState [(49, 0), (57, 0)]).selected_joint = some Joint.gripper ∧
    (processKeys initState [(49, 0), (57, 0)]).joint_positions_arm =
      initState.joint_positions_arm := by
  have h := c6_digit_sequence initState [(49, 0), (57, 0)] (by simp) (by decide)
  exact ⟨h.1, h.2.1⟩

/-- C7: when the polled key of an iteration is `q`, the loop stops — the
SIGINT sent by `_key_pressed` aborts the iteration (modelled as the
interrupt outcome of `iter`) before the `_set_velocity`/`_publish` steps —
so no goal is dispatched in that iteration or any later one, whatever
presses were pending (the dirty flag would have been set) and whatever
inputs follow. -/
theorem c7_quit_precedes_dispatch (s : TeleopState) (t : ℤ)
    (rest : List (Option Nat × ℤ)) (h : s.running = true) :
    runLoop s ((some 113, t) :: rest) = [] := by
  simp [runLoop, iter, h]

/-- C7 witness: in the state with a due `a` press pending (which would
have produced a dispatch, as the second conjunct shows), pressing `q`
yields no dispatched goal at all. -/
theorem c7_witness :
    runLoop sPressA [(some 113, 0), (none, 100000000)] = [] ∧
    runLoop sPressA [(none, 100000000)] ≠ [] :=
  ⟨c7_quit_precedes_dispatch sPressA 0 [(none, 100000000)] rfl, by decide⟩

/-- C8: when the acknowledgment reports rejection, `goal_response_callback`
only logs `Goal rejected` and returns: it does not request the final
result, submits no goal (no retry), and leaves the whole control state —
positions, selection, pending presses — exactly as it was. -/
theorem c8_rejection_only_logs (s : TeleopState) :
    goal_response_callback s false =
      ⟨s, ["Goal rejected"], false, []⟩ := rfl

/-- C9: in every state reachable from startup, the arm position list has
length 7 and an integer selection is an index 0..6, so every
`_joint_positions_arm[self._selected_joint]` access (integration tick,
status display, arm goal construction) is in bounds. -/
theorem c9_selection_in_bounds (s : TeleopState) (h : Reachable s) :
    s.joint_positions_arm.length = 7 ∧
    ∀ i, s.selected_joint = some (Joint.arm i) →
      i < s.joint_positions_arm.length := by
  induction h with
  | init =>
    refine ⟨rfl, fun i hi => ?_⟩
    simp [initState] at hi
  | key s k now hr ih =>
    have hlist : (key_pressed s k now).joint_positions_arm = s.joint_positions_arm := by
      unfold key_pressed
      split_ifs <;> rfl
    have hselcases : (key_pressed s k now).selected_joint = s.selected_joint ∨
        (key_pressed s k now).selected_joint = joint_bindings k ∨
        (key_pressed s k now).selected_joint = none := by
      unfold key_pressed
      split_ifs <;> simp
    refine ⟨by rw [hlist]; exact ih.1, fun i hi => ?_⟩
    rw [hlist]
    rcases hselcases with hc | hc | hc
    · exact ih.2 i (hc ▸ hi)
    · rw [hi] at hc
      have := joint_bindings_arm_lt k i hc.symm
      omega
    · rw [hi] at hc
      exact absurd hc (by simp)
  | tick s now hr ih =>
    refine ⟨by rw [set_velocity_arm_length]; exact ih.1, fun i hi => ?_⟩
    rw [set_velocity_selected] at hi
    rw [set_velocity_arm_length]
    exact ih.2 i hi
  | dispatched s hr ih =>
    exact ⟨ih.1, fun i hi => ih.2 i hi⟩

/-- C9 witness: after pressing `7` from startup (a reachable state with an
arm selection), the arm list has length 7 and the selected index 6 is in
bounds. -/
theorem c9_witness :
    (key_pressed initState 55 0).joint_positions_arm.length = 7 ∧
    6 < (key_pressed initState 55 0).joint_positions_arm.length := by
  have h := c9_selection_in_bounds (key_pressed initState 55 0)
    (Reachable.key initState 55 0 Reachable.init)
  exact ⟨h.1, h.2 6 rfl⟩

/-- C10: an integrator tick never changes the selection, and it mutates at
most the selected group's position component: with arm index `i` selected
only element `i` of the arm vector may change while every other arm
element, the torso scalar and the gripper scalar keep their values;
symmetrically for torso and gripper; with no selection every position is
unchanged. -/
theorem c10_tick_frame (s : TeleopState) (now : ℤ) :
    (set_velocity s now).selected_joint = s.selected_joint ∧
    (∀ i, s.selected_joint = some (Joint.arm i) →
      (set_velocity s now).joint_position_torso = s.joint_position_torso ∧
      (set_velocity s now).joint_position_gripper = s.joint_position_gripper ∧
      ∀ j, j ≠ i → (set_velocity s now).joint_positions_arm.getD j 0 =
        s.joint_positions_arm.getD j 0) ∧
    (s.selected_joint = some Joint.torso →
      (set_velocity s now).joint_positions_arm = s.joint_positions_arm ∧
      (set_velocity s now).joint_position_gripper = s.joint_position_gripper) ∧
    (s.selected_joint = some Joint.gripper →
      (set_velocity s now).joint_positions_arm = s.joint_positions_arm ∧
      (set_velocity s now).joint_position_torso = s.joint_position_torso) ∧
    (s.selected_joint = none →
      (set_velocity s now).joint_positions_arm = s.joint_positions_arm ∧
      (set_velocity s now).joint_position_torso = s.joint_position_torso ∧
      (set_velocity s now).joint_position_gripper = s.joint_position_gripper) := by
  by_cases hk : (dueKeys s now).isEmpty
  · have hsv : set_velocity s now = s := by unfold set_velocity; simp [hk]
    rw [hsv]
    exact ⟨rfl, fun _ _ => ⟨rfl, rfl, fun _ _ => rfl⟩, fun _ => ⟨rfl, rfl⟩,
      fun _ => ⟨rfl, rfl⟩, fun _ => ⟨rfl, rfl, rfl⟩⟩
  · have hsv : set_velocity s now =
        { (dueKeys s now).foldl applyKey s with last_pressed := [] } := by
      unfold set_velocity; simp [hk]
    rw [hsv]
    refine ⟨foldl_selected _ _, fun i hi => ?_, fun hi => ?_, fun hi => ?_, fun hi => ?_⟩
    · obtain ⟨h1, h2, h3⟩ := foldl_arm_frame (dueKeys s now) s i hi
      exact ⟨h1, h2, h3⟩
    · exact foldl_torso_frame (dueKeys s now) s hi
    · exact foldl_gripper_frame (dueKeys s now) s hi
    · exact foldl_none_frame (dueKeys s now) s hi

/-- C10 witness: with arm joint 0 selected and the `a` press due, the tick
keeps the selection and leaves the torso scalar unchanged. -/
theorem c10_witness :
    (set_velocity sPressA 100000000).selected_joint = sPressA.selected_joint ∧
    (set_velocity sPressA 100000000).joint_position_torso =
      sPressA.joint_position_torso := by
  have h := c10_tick_frame sPressA 100000000
  exact ⟨h.1, (h.2.1 0 rfl).1⟩

end ArmTeleop
